import Mathlib

/-!
Verification of the EV trip simulator with charging-stop planning
(src/src/routing/main.py), over a shallow embedding into Lean.

Python floats are modelled as real numbers; the external Open Charge Map
lookup (a requests.get call in the source) is modelled as an injected
collaborator of type Lookup returning Except: a raised exception on one
lookup is an error value, which the callers propagate exactly where the
Python code lets the exception escape.
-/

/-- A waypoint: (latitude, longitude) in degrees. -/
abbrev Wp : Type := ℝ × ℝ

/-- A charger record as returned by the directory: the OCM ID used for
deduplication, plus the rest of the record (opaque payload). -/
structure Charger where
  id : ℤ
  info : String

/-- Errors a simulation run can surface: an index error from subscripting
an empty route (route[0] in Python), or a failed external charger lookup
(an exception from requests raised through get_chargers_near_route). -/
inductive Err where
  | index : Err
  | lookup : Err

/-- The external charger-directory collaborator: latitude, longitude,
distance_km, maxresults; an exception is an error value. -/
abbrev Lookup : Type := ℝ → ℝ → ℝ → ℕ → Except Unit (List Charger)

/-- math.radians: degrees to radians. -/
noncomputable def radians (x : ℝ) : ℝ := x * (Real.pi / 180)

/-- math.atan2 on real numbers, by cases on the signs of the arguments,
following the C99 convention Python implements. -/
noncomputable def atan2 (y x : ℝ) : ℝ :=
  if 0 < x then Real.arctan (y / x)
  else if x < 0 then
    (if 0 ≤ y then Real.arctan (y / x) + Real.pi else Real.arctan (y / x) - Real.pi)
  else if 0 < y then Real.pi / 2
  else if y < 0 then -(Real.pi / 2)
  else 0

/-- haversine from main.py lines 83-91: great-circle distance in km,
Earth radius 6371.0. -/
noncomputable def haversine (lat1 lon1 lat2 lon2 : ℝ) : ℝ :=
  let phi1 := radians lat1
  let phi2 := radians lat2
  let dphi := radians (lat2 - lat1)
  let dlambda := radians (lon2 - lon1)
  let a := Real.sin (dphi / 2) ^ 2 + Real.cos phi1 * Real.cos phi2 * Real.sin (dlambda / 2) ^ 2
  let c := 2 * atan2 (Real.sqrt a) (Real.sqrt (1 - a))
  6371.0 * c

/-- route_segment_distance from routing-main.py lines 74-80: the same
formula, written 2 * R * atan2 instead of R * (2 * atan2). -/
noncomputable def route_segment_distance (lat1 lon1 lat2 lon2 : ℝ) : ℝ :=
  let p1 := radians lat1
  let p2 := radians lat2
  let dp := radians (lat2 - lat1)
  let dl := radians (lon2 - lon1)
  let a := Real.sin (dp / 2) ^ 2 + Real.cos p1 * Real.cos p2 * Real.sin (dl / 2) ^ 2
  2 * 6371.0 * atan2 (Real.sqrt a) (Real.sqrt (1 - a))

/-- Python range(start, stop, step) for a positive step. -/
def pyRange (start stop step : ℕ) : List ℕ :=
  (List.range ((stop - start + step - 1) / step)).map (fun k => start + k * step)

/-- The sample points get_chargers_near_route queries (main.py lines 59-62):
the first and last waypoint, plus, when the route has more than 10 points,
every (len//8)-th interior point. -/
def samplePoints (rc : List Wp) : List Wp :=
  [rc.headD (0, 0), rc.getLastD (0, 0)] ++
    (if rc.length > 10 then
      (pyRange 1 (rc.length - 1) (max 1 (rc.length / 8))).map (fun i => rc.getD i (0, 0))
    else [])

/-- The accumulation loop of get_chargers_near_route (main.py lines 63-76):
one external lookup per sample point, results concatenated in order; the
first lookup that raises aborts the whole fetch. -/
def fetchAll (lookup : Lookup) (max_results : ℕ) (distance_km : ℝ) :
    List Wp → List Charger → Except Err (List Charger)
  | [], acc => .ok acc
  | p :: ps, acc =>
    match lookup p.1 p.2 distance_km max_results with
    | .error _ => .error .lookup
    | .ok cs => fetchAll lookup max_results distance_km ps (acc ++ cs)

/-- One assignment unique[c.id] = c into a Python dict modelled as an
insertion-ordered association list: an existing key keeps its position and
gets the new value, a new key is appended. -/
def dictUpsert (acc : List Charger) (c : Charger) : List Charger :=
  if c.id ∈ acc.map Charger.id then acc.map (fun x => if x.id = c.id then c else x)
  else acc ++ [c]

/-- The dict-based deduplication of main.py lines 77-81: list(unique.values())
after inserting every fetched charger keyed by its ID. -/
def dedupByID (cs : List Charger) : List Charger := cs.foldl dictUpsert []

/-- The key sequence a Python dict built by successive insertion holds:
each key once, at its first-seen position. -/
def firstKeys (ks : List ℤ) : List ℤ :=
  ks.foldl (fun acc k => if k ∈ acc then acc else acc ++ [k]) []

/-- get_chargers_near_route from main.py lines 58-81: sample points along
the route, one lookup each, concatenate, deduplicate by ID. Subscripting
an empty list raises; a failed lookup propagates. -/
def get_chargers_near_route (lookup : Lookup) (route_coords : List Wp)
    (max_results : ℕ) (distance_km : ℝ) : Except Err (List Charger) :=
  match route_coords with
  | [] => .error .index
  | _ :: _ =>
    match fetchAll lookup max_results distance_km (samplePoints route_coords) [] with
    | .error e => .error e
    | .ok raw => .ok (dedupByID raw)

/-- The car_specs dict fields the simulator reads. -/
structure CarSpecs where
  wh_per_km : ℝ
  battery_kwh : ℝ

/-- A charging-stop record as built by the simulator. -/
structure ChargingStop where
  at_km : ℝ
  location : Wp
  chargers : List Charger

/-- Initial range (main.py lines 96-97):
battery_kwh * 1000 * (soc/100) / wh_per_km. -/
noncomputable def initRange (specs : CarSpecs) (soc_percent : ℝ) : ℝ :=
  specs.battery_kwh * 1000 * (soc_percent / 100) / specs.wh_per_km

/-- Range restored by a simulated full recharge (main.py lines 118, 126). -/
noncomputable def fullRange (specs : CarSpecs) : ℝ :=
  specs.battery_kwh * 1000 / specs.wh_per_km

/-- The while loop of simulate_trip_with_charging (main.py lines 103-128):
consume each segment, then check the buffer; on a triggered stop, fetch
chargers near the current point only (raising lookups propagate), record
the stop (empty candidate list when nothing was found), recharge to full. -/
noncomputable def simLoop (lookup : Lookup) (full buf : ℝ) :
    Wp → List Wp → ℝ → ℝ → List ChargingStop → Except Err (List ChargingStop × ℝ)
  | _, [], dist, _, stops => .ok (stops, dist)
  | last, pt :: rest, dist, rem, stops =>
    let seg := haversine last.1 last.2 pt.1 pt.2
    let dist2 := dist + seg
    let rem2 := rem - seg
    if rem2 < buf then
      match get_chargers_near_route lookup [pt] 5 5 with
      | .error e => .error e
      | .ok cs =>
        let stop : ChargingStop :=
          if cs.isEmpty then ⟨dist2, pt, []⟩ else ⟨dist2, pt, cs.take 3⟩
        simLoop lookup full buf pt rest dist2 full (stops ++ [stop])
    else
      simLoop lookup full buf pt rest dist2 rem2 stops

/-- simulate_trip_with_charging from main.py lines 93-129. route[0] on an
empty route raises an index error; otherwise the consume/check loop runs
over the remaining waypoints. -/
noncomputable def simulate_trip_with_charging (lookup : Lookup) (route : List Wp)
    (specs : CarSpecs) (start_soc_percent min_buffer_km : ℝ) :
    Except Err (List ChargingStop × ℝ) :=
  match route with
  | [] => .error .index
  | r0 :: rest =>
    simLoop lookup (fullRange specs) min_buffer_km r0 rest 0
      (initRange specs start_soc_percent) []

/-- The consecutive-pair segments of a route, each with its end waypoint,
starting from a given previous point. -/
noncomputable def segPairsGo : Wp → List Wp → List (ℝ × Wp)
  | _, [] => []
  | last, p :: ps => (haversine last.1 last.2 p.1 p.2, p) :: segPairsGo p ps

/-- The consecutive-pair segments of a route. -/
noncomputable def segPairs : List Wp → List (ℝ × Wp)
  | [] => []
  | r0 :: rest => segPairsGo r0 rest

/-- Sum of the consecutive haversine segment distances of a route. -/
noncomputable def totalDist (route : List Wp) : ℝ :=
  ((segPairs route).map Prod.fst).sum

/-- The lookup-independent state trace of the simulation loop: for each
segment, the cumulative distance after consuming it, the waypoint reached,
and whether the post-consumption buffer check triggered a stop (after which
the remaining range resets to full). -/
noncomputable def traceAux (full buf : ℝ) : List (ℝ × Wp) → ℝ → ℝ → List (ℝ × Wp × Bool)
  | [], _, _ => []
  | (s, pt) :: rest, dist, rem =>
    if rem - s < buf then (dist + s, pt, true) :: traceAux full buf rest (dist + s) full
    else (dist + s, pt, false) :: traceAux full buf rest (dist + s) (rem - s)

/-- The trace of one full simulation run. -/
noncomputable def simTrace (route : List Wp) (specs : CarSpecs) (soc buf : ℝ) :
    List (ℝ × Wp × Bool) :=
  traceAux (fullRange specs) buf (segPairs route) 0 (initRange specs soc)

/-- The (at_km, location) skeletons of the stops a trace predicts. -/
def refStops (tr : List (ℝ × Wp × Bool)) : List (ℝ × Wp) :=
  tr.filterMap (fun x => match x with
    | (d, w, true) => some (d, w)
    | (_, _, false) => none)

/-- The lookup-independent part of a recorded stop. -/
def skel (s : ChargingStop) : ℝ × Wp := (s.at_km, s.location)

/-- A charger-directory stub that always succeeds with no results. -/
def okLookup : Lookup := fun _ _ _ _ => .ok []

/-- A charger-directory stub whose every lookup raises. -/
def badLookup : Lookup := fun _ _ _ _ => .error ()

/-- A charger-directory stub that returns the same single charger, id 7,
from every sample point. -/
def dupLookup : Lookup := fun _ _ _ _ => .ok [⟨7, "a"⟩]

/-- A charger-directory stub that returns a single charger with id 1. -/
def oneLookup : Lookup := fun _ _ _ _ => .ok [⟨1, "b"⟩]

/-! ### Properties of the geodesic distance functions -/

/-- atan2 of two non-negative arguments is non-negative. -/
lemma atan2_nonneg {y x : ℝ} (hy : 0 ≤ y) (hx : 0 ≤ x) : 0 ≤ atan2 y x := by
  unfold atan2
  rcases lt_or_eq_of_le hx with hx' | hx'
  · rw [if_pos hx']
    have h := Real.arctan_strictMono.monotone (div_nonneg hy hx : (0:ℝ) ≤ y / x)
    rwa [Real.arctan_zero] at h
  · rw [if_neg (by rw [← hx']; exact lt_irrefl 0), if_neg (by rw [← hx']; exact lt_irrefl 0)]
    rcases lt_or_eq_of_le hy with hy' | hy'
    · rw [if_pos hy']
      positivity
    · rw [if_neg (by rw [← hy']; exact lt_irrefl 0), if_neg (by rw [← hy']; exact lt_irrefl 0)]

/-- The Earth-radius multiple of atan2 of two square roots is non-negative. -/
lemma R_two_atan2_sqrt_nonneg (e : ℝ) :
    0 ≤ 6371.0 * (2 * atan2 (Real.sqrt e) (Real.sqrt (1 - e))) := by
  have h := atan2_nonneg (Real.sqrt_nonneg e) (Real.sqrt_nonneg (1 - e))
  nlinarith [h]

/-- The haversine distance is non-negative for every real input. -/
lemma haversine_nonneg (lat1 lon1 lat2 lon2 : ℝ) : 0 ≤ haversine lat1 lon1 lat2 lon2 := by
  simp only [haversine]
  exact R_two_atan2_sqrt_nonneg _

/-- Swapping the two endpoints leaves the haversine intermediate value a
unchanged. -/
lemma hav_a_comm (lat1 lon1 lat2 lon2 : ℝ) :
    Real.sin (radians (lat2 - lat1) / 2) ^ 2 +
      Real.cos (radians lat1) * Real.cos (radians lat2) *
        Real.sin (radians (lon2 - lon1) / 2) ^ 2 =
    Real.sin (radians (lat1 - lat2) / 2) ^ 2 +
      Real.cos (radians lat2) * Real.cos (radians lat1) *
        Real.sin (radians (lon1 - lon2) / 2) ^ 2 := by
  have h1 : radians (lat1 - lat2) = -radians (lat2 - lat1) := by unfold radians; ring
  have h2 : radians (lon1 - lon2) = -radians (lon2 - lon1) := by unfold radians; ring
  rw [h1, h2, neg_div, neg_div, Real.sin_neg, Real.sin_neg, neg_sq, neg_sq]
  ring

/-- The haversine distance is exactly symmetric in its two endpoints. -/
lemma haversine_comm (lat1 lon1 lat2 lon2 : ℝ) :
    haversine lat1 lon1 lat2 lon2 = haversine lat2 lon2 lat1 lon1 := by
  simp only [haversine]
  rw [hav_a_comm lat1 lon1 lat2 lon2]

/-- The haversine distance from a point to itself is exactly zero. -/
lemma haversine_self (lat lon : ℝ) : haversine lat lon lat lon = 0 := by
  simp only [haversine]
  have hz : radians (lat - lat) = 0 := by unfold radians; ring
  have hz' : radians (lon - lon) = 0 := by unfold radians; ring
  rw [hz, hz']
  norm_num [Real.sqrt_one]
  unfold atan2
  rw [if_pos (by norm_num : (0:ℝ) < 1)]
  norm_num [Real.arctan_zero]

/-- route_segment_distance computes the same value as haversine. -/
lemma route_segment_distance_eq_haversine (lat1 lon1 lat2 lon2 : ℝ) :
    route_segment_distance lat1 lon1 lat2 lon2 = haversine lat1 lon1 lat2 lon2 := by
  simp only [route_segment_distance, haversine]
  ring

/-- For two points on the same meridian, with a latitude increase of less
than 180 degrees, the haversine distance is exactly the Earth radius times
the latitude difference in radians. -/
lemma haversine_same_lon (lat1 lat2 lon : ℝ) (h0 : 0 ≤ lat2 - lat1) (h1 : lat2 - lat1 < 180) :
    haversine lat1 lon lat2 lon = 6371.0 * radians (lat2 - lat1) := by
  simp only [haversine]
  have hz : radians (lon - lon) = 0 := by unfold radians; ring
  rw [hz]
  have ht0 : 0 ≤ radians (lat2 - lat1) / 2 := by
    unfold radians
    have := Real.pi_pos
    positivity
  have ht1 : radians (lat2 - lat1) / 2 < Real.pi / 2 := by
    unfold radians
    have hp := Real.pi_pos
    rw [div_lt_div_iff_of_pos_right (by norm_num : (0:ℝ) < 2)]
    nlinarith [hp]
  set t := radians (lat2 - lat1) / 2 with htdef
  have hsin : 0 ≤ Real.sin t :=
    Real.sin_nonneg_of_nonneg_of_le_pi ht0 (le_trans ht1.le (by nlinarith [Real.pi_pos]))
  have hcos : 0 < Real.cos t :=
    Real.cos_pos_of_mem_Ioo ⟨lt_of_lt_of_le (by nlinarith [Real.pi_pos]) ht0, ht1⟩
  have ha : Real.sin t ^ 2 + Real.cos (radians lat1) * Real.cos (radians lat2) *
      Real.sin (0 / 2) ^ 2 = Real.sin t ^ 2 := by
    norm_num
  rw [ha]
  have hs1 : Real.sqrt (Real.sin t ^ 2) = Real.sin t := Real.sqrt_sq hsin
  have hs2 : Real.sqrt (1 - Real.sin t ^ 2) = Real.cos t := by
    have hc : 1 - Real.sin t ^ 2 = Real.cos t ^ 2 := by
      have := Real.sin_sq_add_cos_sq t
      linarith
    rw [hc]
    exact Real.sqrt_sq hcos.le
  rw [hs1, hs2]
  have hat : atan2 (Real.sin t) (Real.cos t) = t := by
    unfold atan2
    rw [if_pos hcos, ← Real.tan_eq_sin_div_cos,
      Real.arctan_tan (lt_of_lt_of_le (by nlinarith [Real.pi_pos]) ht0) ht1]
  rw [hat]
  ring

/-! ### Trace correspondence for the simulation loop -/

/-- Every consecutive-pair segment distance is non-negative. -/
lemma segPairsGo_nonneg :
    ∀ (rest : List Wp) (last : Wp), ∀ s ∈ (segPairsGo last rest).map Prod.fst, 0 ≤ s := by
  intro rest
  induction rest with
  | nil => intro last s hs; simp [segPairsGo] at hs
  | cons p ps ih =>
    intro last s hs
    simp only [segPairsGo, List.map_cons, List.mem_cons] at hs
    rcases hs with h | h
    · rw [h]; exact haversine_nonneg last.1 last.2 p.1 p.2
    · exact ih p s h

/-- A prefix sum of a list of non-negative reals is at most the full sum. -/
lemma take_sum_le_sum (l : List ℝ) (hl : ∀ x ∈ l, 0 ≤ x) (n : ℕ) :
    (l.take n).sum ≤ l.sum := by
  have h := List.sum_take_add_sum_drop l n
  have h2 : 0 ≤ (l.drop n).sum :=
    List.sum_nonneg (fun x hx => hl x (List.mem_of_mem_drop hx))
  linarith

/-- The cumulative distance recorded at position k of the trace is the prefix
sum of the segment distances up to and including segment k. -/
lemma traceAux_get? (full buf : ℝ) :
    ∀ (sp : List (ℝ × Wp)) (k : ℕ) (dist rem : ℝ) (a : ℝ) (w : Wp) (b : Bool),
      (traceAux full buf sp dist rem).get? k = some (a, w, b) →
      a = dist + ((sp.map Prod.fst).take (k + 1)).sum := by
  intro sp
  induction sp with
  | nil => intro k dist rem a w b h; simp [traceAux] at h
  | cons x rest ih =>
    intro k dist rem a w b h
    obtain ⟨s, pt⟩ := x
    by_cases htr : rem - s < buf
    · simp only [traceAux] at h
      rw [if_pos htr] at h
      cases k with
      | zero =>
        simp only [List.get?_cons_zero, Option.some.injEq, Prod.mk.injEq] at h
        simp only [List.map_cons, List.take_succ_cons, List.take_zero, List.sum_cons,
          List.sum_nil]
        linarith [h.1]
      | succ k =>
        rw [List.get?_cons_succ] at h
        have := ih k (dist + s) full a w b h
        simp only [List.map_cons, List.take_succ_cons, List.sum_cons]
        linarith
    · simp only [traceAux] at h
      rw [if_neg htr] at h
      cases k with
      | zero =>
        simp only [List.get?_cons_zero, Option.some.injEq, Prod.mk.injEq] at h
        simp only [List.map_cons, List.take_succ_cons, List.take_zero, List.sum_cons,
          List.sum_nil]
        linarith [h.1]
      | succ k =>
        rw [List.get?_cons_succ] at h
        have := ih k (dist + s) (rem - s) a w b h
        simp only [List.map_cons, List.take_succ_cons, List.sum_cons]
        linarith

/-- Every predicted stop skeleton appears in the trace as a triggered entry. -/
lemma refStops_mem (tr : List (ℝ × Wp × Bool)) (x : ℝ × Wp) (hx : x ∈ refStops tr) :
    ∃ k, tr.get? k = some (x.1, x.2, true) := by
  unfold refStops at hx
  rw [List.mem_filterMap] at hx
  obtain ⟨y, hy, hfy⟩ := hx
  obtain ⟨d, w, b⟩ := y
  cases b
  · simp at hfy
  · simp only [Option.some.injEq] at hfy
    obtain ⟨k, hk⟩ := List.get?_of_mem hy
    refine ⟨k, ?_⟩
    rw [hk, ← hfy]

/-- The skeleton of the stop recorded at a triggered decision point does not
depend on which chargers were found. -/
lemma skel_recorded_stop (dist2 : ℝ) (pt : Wp) (cs : List Charger) :
    skel (if cs.isEmpty then (⟨dist2, pt, []⟩ : ChargingStop) else ⟨dist2, pt, cs.take 3⟩) =
      (dist2, pt) := by
  by_cases hc : cs.isEmpty <;> simp [hc, skel]

/-- Whenever the simulation loop completes, its stop skeletons are exactly
those predicted by the lookup-independent trace, and its total distance is
the accumulated distance plus the sum of the remaining segment distances. -/
lemma simLoop_ok_skel (lookup : Lookup) (full buf : ℝ) :
    ∀ (rest : List Wp) (last : Wp) (dist rem : ℝ) (stops st : List ChargingStop) (tot : ℝ),
      simLoop lookup full buf last rest dist rem stops = .ok (st, tot) →
      st.map skel = stops.map skel ++ refStops (traceAux full buf (segPairsGo last rest) dist rem)
        ∧ tot = dist + ((segPairsGo last rest).map Prod.fst).sum := by
  intro rest
  induction rest with
  | nil =>
    intro last dist rem stops st tot h
    simp only [simLoop, Except.ok.injEq, Prod.mk.injEq] at h
    obtain ⟨h1, h2⟩ := h
    subst h1; subst h2
    simp [segPairsGo, traceAux, refStops]
  | cons pt rest ih =>
    intro last dist rem stops st tot h
    simp only [simLoop] at h
    by_cases htr : rem - haversine last.1 last.2 pt.1 pt.2 < buf
    · rw [if_pos htr] at h
      cases hgc : get_chargers_near_route lookup [pt] 5 5 with
      | error e => rw [hgc] at h; simp at h
      | ok cs =>
        rw [hgc] at h
        simp only [] at h
        obtain ⟨h1, h2⟩ := ih pt (dist + haversine last.1 last.2 pt.1 pt.2) full _ st tot h
        constructor
        · rw [h1]
          simp only [segPairsGo, traceAux]
          rw [if_pos htr]
          simp only [List.map_append, List.map_cons, List.map_nil, refStops,
            List.filterMap_cons]
          simp only [skel_recorded_stop]
          simp [refStops, List.append_assoc]
        · rw [h2]
          simp only [segPairsGo, List.map_cons, List.sum_cons]
          ring
    · rw [if_neg htr] at h
      obtain ⟨h1, h2⟩ := ih pt (dist + haversine last.1 last.2 pt.1 pt.2)
        (rem - haversine last.1 last.2 pt.1 pt.2) stops st tot h
      constructor
      · rw [h1]
        simp only [segPairsGo, traceAux]
        rw [if_neg htr]
        simp [refStops, List.filterMap_cons]
      · rw [h2]
        simp only [segPairsGo, List.map_cons, List.sum_cons]
        ring

/-- If the directory collaborator never raises, the accumulation loop of
the fetcher succeeds. -/
lemma fetchAll_ok (lookup : Lookup)
    (hlk : ∀ lat lon d m, ∃ cs, lookup lat lon d m = .ok cs) (m : ℕ) (d : ℝ) :
    ∀ (pts : List Wp) (acc : List Charger), ∃ r, fetchAll lookup m d pts acc = .ok r := by
  intro pts
  induction pts with
  | nil => intro acc; exact ⟨acc, rfl⟩
  | cons p ps ih =>
    intro acc
    obtain ⟨cs, hcs⟩ := hlk p.1 p.2 d m
    obtain ⟨r, hr⟩ := ih (acc ++ cs)
    refine ⟨r, ?_⟩
    simp only [fetchAll]
    rw [hcs]
    exact hr

/-- If the directory collaborator never raises, the fetcher succeeds on any
non-empty point list. -/
lemma get_chargers_ok (lookup : Lookup)
    (hlk : ∀ lat lon d m, ∃ cs, lookup lat lon d m = .ok cs)
    (rc : List Wp) (hne : rc ≠ []) (m : ℕ) (d : ℝ) :
    ∃ r, get_chargers_near_route lookup rc m d = .ok r := by
  match rc with
  | [] => exact absurd rfl hne
  | p :: ps =>
    obtain ⟨raw, hraw⟩ := fetchAll_ok lookup hlk m d (samplePoints (p :: ps)) []
    refine ⟨dedupByID raw, ?_⟩
    simp only [get_chargers_near_route]
    rw [hraw]

/-- If the directory collaborator never raises, the simulation loop runs to
completion. -/
lemma simLoop_ok_total (lookup : Lookup)
    (hlk : ∀ lat lon d m, ∃ cs, lookup lat lon d m = .ok cs) (full buf : ℝ) :
    ∀ (rest : List Wp) (last : Wp) (dist rem : ℝ) (stops : List ChargingStop),
      ∃ st tot, simLoop lookup full buf last rest dist rem stops = .ok (st, tot) := by
  intro rest
  induction rest with
  | nil => intro last dist rem stops; exact ⟨stops, dist, rfl⟩
  | cons pt rest ih =>
    intro last dist rem stops
    by_cases htr : rem - haversine last.1 last.2 pt.1 pt.2 < buf
    · obtain ⟨cs, hcs⟩ := get_chargers_ok lookup hlk [pt] (by simp) 5 5
      obtain ⟨st, tot, hst⟩ := ih pt (dist + haversine last.1 last.2 pt.1 pt.2) full
        (stops ++ [if cs.isEmpty then (⟨dist + haversine last.1 last.2 pt.1 pt.2, pt, []⟩ :
          ChargingStop) else ⟨dist + haversine last.1 last.2 pt.1 pt.2, pt, cs.take 3⟩])
      refine ⟨st, tot, ?_⟩
      simp only [simLoop]
      rw [if_pos htr, hcs]
      exact hst
    · obtain ⟨st, tot, hst⟩ := ih pt (dist + haversine last.1 last.2 pt.1 pt.2)
        (rem - haversine last.1 last.2 pt.1 pt.2) stops
      refine ⟨st, tot, ?_⟩
      simp only [simLoop]
      rw [if_neg htr]
      exact hst

/-- A run whose every remaining segment fits in the remaining range with the
buffer to spare triggers no stop at all. -/
lemma simLoop_no_trigger (lookup : Lookup) (full buf : ℝ) :
    ∀ (rest : List Wp) (last : Wp) (dist rem : ℝ) (stops : List ChargingStop),
      ((segPairsGo last rest).map Prod.fst).sum < rem - buf →
      simLoop lookup full buf last rest dist rem stops =
        .ok (stops, dist + ((segPairsGo last rest).map Prod.fst).sum) := by
  intro rest
  induction rest with
  | nil =>
    intro last dist rem stops _
    simp [simLoop, segPairsGo]
  | cons pt rest ih =>
    intro last dist rem stops hs
    simp only [segPairsGo, List.map_cons, List.sum_cons] at hs
    have hrest : 0 ≤ ((segPairsGo pt rest).map Prod.fst).sum :=
      List.sum_nonneg (fun x hx => segPairsGo_nonneg rest pt x hx)
    have htr : ¬ (rem - haversine last.1 last.2 pt.1 pt.2 < buf) := by linarith
    simp only [simLoop]
    rw [if_neg htr]
    rw [ih pt (dist + haversine last.1 last.2 pt.1 pt.2)
      (rem - haversine last.1 last.2 pt.1 pt.2) stops (by linarith)]
    simp only [segPairsGo, List.map_cons, List.sum_cons, Except.ok.injEq, Prod.mk.injEq]
    constructor
    · trivial
    · ring

/-- With a collaborator that always succeeds with an empty result, the
fetcher at a decision point returns an empty candidate list. -/
lemma get_chargers_empty (lookup : Lookup)
    (hlk : ∀ lat lon d m, lookup lat lon d m = .ok []) (p : Wp) (m : ℕ) (d : ℝ) :
    get_chargers_near_route lookup [p] m d = .ok [] := by
  simp only [get_chargers_near_route, samplePoints]
  norm_num [fetchAll, hlk, dedupByID]

/-- With a collaborator that always succeeds with an empty result, every
stop the loop records carries an empty candidate list. -/
lemma simLoop_chargers_empty (lookup : Lookup)
    (hlk : ∀ lat lon d m, lookup lat lon d m = .ok []) (full buf : ℝ) :
    ∀ (rest : List Wp) (last : Wp) (dist rem : ℝ)
      (stops st : List ChargingStop) (tot : ℝ),
      (∀ s ∈ stops, s.chargers = []) →
      simLoop lookup full buf last rest dist rem stops = .ok (st, tot) →
      ∀ s ∈ st, s.chargers = [] := by
  intro rest
  induction rest with
  | nil =>
    intro last dist rem stops st tot hstops h
    simp only [simLoop, Except.ok.injEq, Prod.mk.injEq] at h
    obtain ⟨h1, _⟩ := h
    subst h1
    exact hstops
  | cons pt rest ih =>
    intro last dist rem stops st tot hstops h
    simp only [simLoop] at h
    by_cases htr : rem - haversine last.1 last.2 pt.1 pt.2 < buf
    · rw [if_pos htr, get_chargers_empty lookup hlk pt 5 5] at h
      simp only [List.isEmpty_nil, if_pos] at h
      refine ih pt _ _ _ st tot ?_ h
      intro s hs
      rcases List.mem_append.mp hs with hsl | hsr
      · exact hstops s hsl
      · simp only [List.mem_singleton] at hsr
        rw [hsr]
    · rw [if_neg htr] at h
      exact ih pt _ _ stops st tot hstops h

/-! ### Step lemmas for computing concrete runs -/

/-- The loop on an exhausted waypoint list returns the stops and distance
accumulated so far. -/
lemma simLoop_nil (lookup : Lookup) (full buf : ℝ) (last : Wp) (dist rem : ℝ)
    (stops : List ChargingStop) :
    simLoop lookup full buf last [] dist rem stops = .ok (stops, dist) := rfl

/-- One loop iteration that triggers a stop and finds no chargers. -/
lemma simLoop_cons_trigger (lookup : Lookup) (full buf : ℝ) (last pt : Wp)
    (rest : List Wp) (dist rem : ℝ) (stops : List ChargingStop)
    (htr : rem - haversine last.1 last.2 pt.1 pt.2 < buf)
    (hgc : get_chargers_near_route lookup [pt] 5 5 = .ok []) :
    simLoop lookup full buf last (pt :: rest) dist rem stops =
      simLoop lookup full buf pt rest (dist + haversine last.1 last.2 pt.1 pt.2) full
        (stops ++ [⟨dist + haversine last.1 last.2 pt.1 pt.2, pt, []⟩]) := by
  simp only [simLoop]
  rw [if_pos htr, hgc]
  simp

/-- One loop iteration that triggers a stop at which the lookup raises:
the exception propagates out of the whole loop. -/
lemma simLoop_cons_trigger_err (lookup : Lookup) (full buf : ℝ) (last pt : Wp)
    (rest : List Wp) (dist rem : ℝ) (stops : List ChargingStop) (e : Err)
    (htr : rem - haversine last.1 last.2 pt.1 pt.2 < buf)
    (hgc : get_chargers_near_route lookup [pt] 5 5 = .error e) :
    simLoop lookup full buf last (pt :: rest) dist rem stops = .error e := by
  simp only [simLoop]
  rw [if_pos htr, hgc]

/-- At a decision point, the always-raising collaborator makes the fetcher
propagate the lookup failure. -/
lemma get_chargers_bad (p : Wp) (m : ℕ) (d : ℝ) :
    get_chargers_near_route badLookup [p] m d = .error .lookup := rfl

/-- At a decision point, the always-empty collaborator makes the fetcher
return no candidates. -/
lemma get_chargers_okLookup (p : Wp) (m : ℕ) (d : ℝ) :
    get_chargers_near_route okLookup [p] m d = .ok [] := rfl

/-! ### Deduplication properties -/

/-- Updating an existing key in place leaves the key sequence unchanged. -/
lemma dictUpsert_map_id (acc : List Charger) (c : Charger) :
    (dictUpsert acc c).map Charger.id =
      if c.id ∈ acc.map Charger.id then acc.map Charger.id
      else acc.map Charger.id ++ [c.id] := by
  unfold dictUpsert
  by_cases hmem : c.id ∈ acc.map Charger.id
  · rw [if_pos hmem, if_pos hmem, List.map_map]
    refine List.map_congr_left ?_
    intro x _
    by_cases hx : x.id = c.id
    · simp [Function.comp, hx]
    · simp [Function.comp, hx]
  · rw [if_neg hmem, if_neg hmem]
    simp

/-- The id sequence of the dict fold is the first-seen key fold of the id
sequence. -/
lemma dedup_fold_keys :
    ∀ (cs : List Charger) (acc : List Charger),
      (cs.foldl dictUpsert acc).map Charger.id =
        (cs.map Charger.id).foldl
          (fun ks k => if k ∈ ks then ks else ks ++ [k]) (acc.map Charger.id) := by
  intro cs
  induction cs with
  | nil => intro acc; rfl
  | cons c rest ih =>
    intro acc
    simp only [List.foldl_cons, List.map_cons]
    rw [ih (dictUpsert acc c), dictUpsert_map_id]

/-- The ids of the deduplicated list are the first-seen keys of the raw ids. -/
lemma dedupByID_map_id (cs : List Charger) :
    (dedupByID cs).map Charger.id = firstKeys (cs.map Charger.id) := by
  unfold dedupByID firstKeys
  have h := dedup_fold_keys cs []
  simpa using h

/-- The first-seen key fold keeps the accumulator free of duplicates. -/
lemma firstKeys_fold_nodup :
    ∀ (ks : List ℤ) (acc : List ℤ), acc.Nodup →
      (ks.foldl (fun a k => if k ∈ a then a else a ++ [k]) acc).Nodup := by
  intro ks
  induction ks with
  | nil => intro acc h; exact h
  | cons k rest ih =>
    intro acc h
    simp only [List.foldl_cons]
    by_cases hk : k ∈ acc
    · rw [if_pos hk]; exact ih acc h
    · rw [if_neg hk]
      refine ih (acc ++ [k]) ?_
      simp [List.nodup_append, h, hk]

/-- The first-seen key list has no duplicates. -/
lemma firstKeys_nodup (ks : List ℤ) : (firstKeys ks).Nodup :=
  firstKeys_fold_nodup ks [] List.nodup_nil

/-! ### Concrete runs used as witnesses -/

/-- The degenerate two-waypoint route sitting at the origin has total
distance zero. -/
lemma totalDist_zero :
    totalDist [((0:ℝ), (0:ℝ)), ((0:ℝ), (0:ℝ))] = 0 := by
  unfold totalDist segPairs
  simp [segPairsGo, haversine_self]

/-- With an empty battery (SOC 0) the origin-to-origin route triggers one
stop at distance zero. -/
lemma sim_concrete_zero :
    simulate_trip_with_charging okLookup [((0:ℝ), (0:ℝ)), ((0:ℝ), (0:ℝ))]
        ⟨150, 40⟩ 0 20 =
      .ok ([⟨0, ((0:ℝ), (0:ℝ)), []⟩], 0) := by
  have hseg : haversine ((0:ℝ), (0:ℝ)).1 ((0:ℝ), (0:ℝ)).2 ((0:ℝ), (0:ℝ)).1 ((0:ℝ), (0:ℝ)).2
      = 0 := haversine_self 0 0
  have htr : initRange ⟨150, 40⟩ 0 -
      haversine ((0:ℝ), (0:ℝ)).1 ((0:ℝ), (0:ℝ)).2 ((0:ℝ), (0:ℝ)).1 ((0:ℝ), (0:ℝ)).2 < 20 := by
    rw [hseg]
    unfold initRange
    norm_num
  simp only [simulate_trip_with_charging]
  rw [simLoop_cons_trigger okLookup (fullRange ⟨150, 40⟩) 20 ((0:ℝ), (0:ℝ)) ((0:ℝ), (0:ℝ)) []
    0 (initRange ⟨150, 40⟩ 0) [] htr (get_chargers_okLookup ((0:ℝ), (0:ℝ)) 5 5)]
  rw [simLoop_nil]
  rw [hseg]
  norm_num

/-- The trace of that empty-battery run predicts exactly one stop, at
distance zero. -/
lemma trace_concrete_zero :
    refStops (simTrace [((0:ℝ), (0:ℝ)), ((0:ℝ), (0:ℝ))] ⟨150, 40⟩ 0 20) =
      [((0:ℝ), ((0:ℝ), (0:ℝ)))] := by
  unfold simTrace segPairs
  simp only [segPairsGo, haversine_self]
  have htr : initRange ⟨150, 40⟩ 0 - 0 < 20 := by unfold initRange; norm_num
  simp only [traceAux]
  rw [if_pos htr]
  simp [refStops]

/-- The 0.1-degree meridian step, about 11.12 km, is above 11 km. -/
lemma segD_lb : (11:ℝ) < 6371.0 * radians 0.1 := by
  unfold radians
  nlinarith [Real.pi_gt_d6]

/-- The 0.1-degree meridian step is below 11.2 km. -/
lemma segD_ub : 6371.0 * radians 0.1 < 11.2 := by
  unfold radians
  nlinarith [Real.pi_lt_d2]

/-- The first segment of the concrete scenario route evaluates exactly. -/
lemma hsegC4_1 :
    haversine ((52:ℝ), (-1:ℝ)).1 ((52:ℝ), (-1:ℝ)).2 ((52.1:ℝ), (-1:ℝ)).1 ((52.1:ℝ), (-1:ℝ)).2
      = 6371.0 * radians 0.1 := by
  have h := haversine_same_lon 52 52.1 (-1) (by norm_num) (by norm_num)
  have he : (52.1:ℝ) - 52 = 0.1 := by norm_num
  rw [he] at h
  exact h

/-- The second segment of the concrete scenario route evaluates exactly. -/
lemma hsegC4_2 :
    haversine ((52.1:ℝ), (-1:ℝ)).1 ((52.1:ℝ), (-1:ℝ)).2 ((52.2:ℝ), (-1:ℝ)).1
      ((52.2:ℝ), (-1:ℝ)).2 = 6371.0 * radians 0.1 := by
  have h := haversine_same_lon 52.1 52.2 (-1) (by norm_num) (by norm_num)
  have he : (52.2:ℝ) - 52.1 = 0.1 := by norm_num
  rw [he] at h
  exact h

/-- The concrete scenario run: 1 kWh battery, 150 Wh/km, SOC 100, buffer 20,
three waypoints 0.1 degrees of latitude apart. Both segments trigger, so the
run records two stops. -/
lemma sim_C4 :
    simulate_trip_with_charging okLookup
        [((52:ℝ), (-1:ℝ)), ((52.1:ℝ), (-1:ℝ)), ((52.2:ℝ), (-1:ℝ))] ⟨150, 1⟩ 100 20 =
      .ok ([⟨6371.0 * radians 0.1, ((52.1:ℝ), (-1:ℝ)), []⟩,
            ⟨6371.0 * radians 0.1 + 6371.0 * radians 0.1, ((52.2:ℝ), (-1:ℝ)), []⟩],
           6371.0 * radians 0.1 + 6371.0 * radians 0.1) := by
  have hD := segD_lb
  have htr1 : initRange ⟨150, 1⟩ 100 -
      haversine ((52:ℝ), (-1:ℝ)).1 ((52:ℝ), (-1:ℝ)).2 ((52.1:ℝ), (-1:ℝ)).1
        ((52.1:ℝ), (-1:ℝ)).2 < 20 := by
    rw [hsegC4_1]
    unfold initRange
    norm_num
    linarith
  have htr2 : fullRange ⟨150, 1⟩ -
      haversine ((52.1:ℝ), (-1:ℝ)).1 ((52.1:ℝ), (-1:ℝ)).2 ((52.2:ℝ), (-1:ℝ)).1
        ((52.2:ℝ), (-1:ℝ)).2 < 20 := by
    rw [hsegC4_2]
    unfold fullRange
    norm_num
    linarith
  simp only [simulate_trip_with_charging]
  rw [simLoop_cons_trigger okLookup (fullRange ⟨150, 1⟩) 20 ((52:ℝ), (-1:ℝ))
    ((52.1:ℝ), (-1:ℝ)) [((52.2:ℝ), (-1:ℝ))] 0 (initRange ⟨150, 1⟩ 100) [] htr1
    (get_chargers_okLookup ((52.1:ℝ), (-1:ℝ)) 5 5)]
  rw [simLoop_cons_trigger okLookup (fullRange ⟨150, 1⟩) 20 ((52.1:ℝ), (-1:ℝ))
    ((52.2:ℝ), (-1:ℝ)) [] (0 + haversine ((52:ℝ), (-1:ℝ)).1 ((52:ℝ), (-1:ℝ)).2
      ((52.1:ℝ), (-1:ℝ)).1 ((52.1:ℝ), (-1:ℝ)).2) (fullRange ⟨150, 1⟩) _ htr2
    (get_chargers_okLookup ((52.2:ℝ), (-1:ℝ)) 5 5)]
  rw [simLoop_nil]
  rw [hsegC4_1, hsegC4_2]
  norm_num

/-! ### Claims -/

/-- C9: for every pair of coordinates, the geodesic distance functions of
both scripts are exactly symmetric, evaluate to exactly zero on equal
endpoints (so zero up to floating-point rounding), and are non-negative.
Real-number model of the float computation. -/
theorem C9_distance_symmetric_nonneg (lat1 lon1 lat2 lon2 : ℝ) :
    haversine lat1 lon1 lat2 lon2 = haversine lat2 lon2 lat1 lon1 ∧
    haversine lat1 lon1 lat1 lon1 = 0 ∧
    0 ≤ haversine lat1 lon1 lat2 lon2 ∧
    route_segment_distance lat1 lon1 lat2 lon2 = route_segment_distance lat2 lon2 lat1 lon1 ∧
    route_segment_distance lat1 lon1 lat1 lon1 = 0 ∧
    0 ≤ route_segment_distance lat1 lon1 lat2 lon2 := by
  refine ⟨haversine_comm lat1 lon1 lat2 lon2, haversine_self lat1 lon1,
    haversine_nonneg lat1 lon1 lat2 lon2, ?_, ?_, ?_⟩
  · rw [route_segment_distance_eq_haversine, route_segment_distance_eq_haversine]
    exact haversine_comm lat1 lon1 lat2 lon2
  · rw [route_segment_distance_eq_haversine]
    exact haversine_self lat1 lon1
  · rw [route_segment_distance_eq_haversine]
    exact haversine_nonneg lat1 lon1 lat2 lon2

/-- C2: a non-empty route whose total haversine distance is below the
initial range minus the buffer produces no stops, and the reported total
distance is exactly the sum of the consecutive haversine segment
distances. -/
theorem C2_short_route_no_stops (lookup : Lookup) (route : List Wp) (specs : CarSpecs)
    (soc buf : ℝ) (hne : route ≠ [])
    (hlt : totalDist route < initRange specs soc - buf) :
    simulate_trip_with_charging lookup route specs soc buf = .ok ([], totalDist route) := by
  match route with
  | [] => exact absurd rfl hne
  | r0 :: rest =>
    simp only [totalDist, segPairs] at hlt ⊢
    simp only [simulate_trip_with_charging]
    rw [simLoop_no_trigger lookup (fullRange specs) buf rest r0 0 (initRange specs soc) [] hlt]
    norm_num

/-- Witness for C2 at a concrete short route. -/
theorem C2_witness :
    (([((0:ℝ), (0:ℝ)), ((0:ℝ), (0:ℝ))] : List Wp) ≠ []) ∧
    totalDist [((0:ℝ), (0:ℝ)), ((0:ℝ), (0:ℝ))] < initRange ⟨150, 40⟩ 100 - 20 ∧
    simulate_trip_with_charging okLookup [((0:ℝ), (0:ℝ)), ((0:ℝ), (0:ℝ))] ⟨150, 40⟩ 100 20 =
      .ok ([], totalDist [((0:ℝ), (0:ℝ)), ((0:ℝ), (0:ℝ))]) := by
  have h1 : ([((0:ℝ), (0:ℝ)), ((0:ℝ), (0:ℝ))] : List Wp) ≠ [] := by simp
  have h2 : totalDist [((0:ℝ), (0:ℝ)), ((0:ℝ), (0:ℝ))] < initRange ⟨150, 40⟩ 100 - 20 := by
    rw [totalDist_zero]
    unfold initRange
    norm_num
  exact ⟨h1, h2, C2_short_route_no_stops okLookup _ ⟨150, 40⟩ 100 20 h1 h2⟩

/-- C5 counterexample: a one-waypoint route (fewer than 2 waypoints) is not
rejected: the simulator returns a normal result, an empty stops list with
total distance 0, instead of raising any error. -/
theorem C5_counterexample :
    simulate_trip_with_charging okLookup [((3:ℝ), (4:ℝ))] ⟨150, 40⟩ 100 20 =
      .ok ([], 0) := rfl

/-- C5 amended: only an empty route aborts (with the index error raised by
route[0]) and then yields no partial result; a one-waypoint route is
accepted and returns an empty stops list and total distance 0. -/
theorem C5_short_route_amended (lookup : Lookup) (specs : CarSpecs) (soc buf : ℝ) (p : Wp) :
    simulate_trip_with_charging lookup [] specs soc buf = .error .index ∧
    simulate_trip_with_charging lookup [p] specs soc buf = .ok ([], 0) :=
  ⟨rfl, rfl⟩

/-- C7 counterexample: called with a single point, as the simulator does at
a decision point, the fetcher builds the two-element sample list [p, p]
(first and last of the singleton) and so performs two external lookups, not
one; with a stub returning one charger per lookup, the accumulated raw list
has two entries. -/
theorem C7_counterexample :
    (samplePoints [((0:ℝ), (0:ℝ))]).length = 2 ∧
    fetchAll dupLookup 5 5 (samplePoints [((0:ℝ), (0:ℝ))]) [] =
      .ok [⟨7, "a"⟩, ⟨7, "a"⟩] :=
  ⟨rfl, rfl⟩

/-- C7 amended: the fetcher issues one lookup per entry of its sample-point
list, which always starts with the first and last waypoints of its
argument; for a single-point argument these coincide, so the point is
queried exactly twice and the result is the deduplication of the two
concatenated lookup results. -/
theorem C7_two_lookups_amended (g : ℝ → ℝ → List Charger) (p : Wp) (m : ℕ) (d : ℝ) :
    get_chargers_near_route (fun lat lon _ _ => Except.ok (g lat lon)) [p] m d =
      .ok (dedupByID (g p.1 p.2 ++ g p.1 p.2)) := by
  simp only [get_chargers_near_route, samplePoints, fetchAll]
  norm_num [fetchAll]

/-- C4 counterexample: in the concrete scenario (route (52,-1), (52.1,-1),
(52.2,-1), consumption 150 Wh/km, battery 1 kWh, SOC 100, buffer 20 km,
charger stub finding nothing) the simulator records two charging stops, not
exactly one: each 11.1 km segment exceeds the 6.7 km full range, so the
second transition triggers again after the recharge at the first. -/
theorem C4_counterexample :
    simulate_trip_with_charging okLookup
        [((52:ℝ), (-1:ℝ)), ((52.1:ℝ), (-1:ℝ)), ((52.2:ℝ), (-1:ℝ))] ⟨150, 1⟩ 100 20 =
      .ok ([⟨6371.0 * radians 0.1, ((52.1:ℝ), (-1:ℝ)), []⟩,
            ⟨6371.0 * radians 0.1 + 6371.0 * radians 0.1, ((52.2:ℝ), (-1:ℝ)), []⟩],
           6371.0 * radians 0.1 + 6371.0 * radians 0.1) :=
  sim_C4

/-- C4 amended: the run produces exactly two stops; the first is triggered
at the first waypoint transition, at_km about 11.1 km (strictly between 11
and 11.2), the second at the second transition, and the first stop lies
within the total distance. -/
theorem C4_two_stops_amended :
    ∃ s1 s2 : ChargingStop, ∃ tot : ℝ,
      simulate_trip_with_charging okLookup
          [((52:ℝ), (-1:ℝ)), ((52.1:ℝ), (-1:ℝ)), ((52.2:ℝ), (-1:ℝ))] ⟨150, 1⟩ 100 20 =
        .ok ([s1, s2], tot) ∧
      s1.location = ((52.1:ℝ), (-1:ℝ)) ∧ 11 < s1.at_km ∧ s1.at_km < 11.2 ∧
      s2.location = ((52.2:ℝ), (-1:ℝ)) ∧ s1.at_km ≤ tot := by
  refine ⟨_, _, _, sim_C4, rfl, segD_lb, segD_ub, rfl, ?_⟩
  have h := segD_lb
  simp only
  linarith

/-- C3 counterexample: with a collaborator whose every lookup raises, a
triggered decision point does not record a stop with an empty candidate
list; the exception propagates and the whole simulation aborts with the
lookup error instead of continuing to completion. -/
theorem C3_counterexample :
    simulate_trip_with_charging badLookup [((0:ℝ), (0:ℝ)), ((0:ℝ), (0:ℝ))]
        ⟨150, 40⟩ 0 20 = .error .lookup := by
  have hseg : haversine ((0:ℝ), (0:ℝ)).1 ((0:ℝ), (0:ℝ)).2 ((0:ℝ), (0:ℝ)).1
      ((0:ℝ), (0:ℝ)).2 = 0 := haversine_self 0 0
  have htr : initRange ⟨150, 40⟩ 0 - haversine ((0:ℝ), (0:ℝ)).1 ((0:ℝ), (0:ℝ)).2
      ((0:ℝ), (0:ℝ)).1 ((0:ℝ), (0:ℝ)).2 < 20 := by
    rw [hseg]
    unfold initRange
    norm_num
  simp only [simulate_trip_with_charging]
  exact simLoop_cons_trigger_err badLookup (fullRange ⟨150, 40⟩) 20 ((0:ℝ), (0:ℝ))
    ((0:ℝ), (0:ℝ)) [] 0 (initRange ⟨150, 40⟩ 0) [] .lookup htr
    (get_chargers_bad ((0:ℝ), (0:ℝ)) 5 5)

/-- C3 amended: a raising lookup at a decision point aborts the simulation
with the lookup error and no partial result; only when the lookups succeed
while finding nothing is each triggered stop recorded with an empty
candidate list while the simulation runs to completion, with the stop
skeletons exactly those of the lookup-independent trace. -/
theorem C3_lookup_failure_amended (lookup : Lookup) (route : List Wp) (specs : CarSpecs)
    (soc buf : ℝ) (hne : route ≠ [])
    (hemp : ∀ lat lon d m, lookup lat lon d m = .ok []) :
    ∃ st tot, simulate_trip_with_charging lookup route specs soc buf = .ok (st, tot) ∧
      st.map skel = refStops (simTrace route specs soc buf) ∧
      ∀ s ∈ st, s.chargers = [] := by
  have hlk : ∀ lat lon d m, ∃ cs, lookup lat lon d m = .ok cs :=
    fun a b c e => ⟨[], hemp a b c e⟩
  match route with
  | [] => exact absurd rfl hne
  | r0 :: rest =>
    obtain ⟨st, tot, hok⟩ := simLoop_ok_total lookup hlk (fullRange specs) buf rest r0 0
      (initRange specs soc) []
    obtain ⟨hskel, -⟩ := simLoop_ok_skel lookup (fullRange specs) buf rest r0 0
      (initRange specs soc) [] st tot hok
    refine ⟨st, tot, by simpa [simulate_trip_with_charging] using hok, ?_, ?_⟩
    · simpa [simTrace, segPairs] using hskel
    · exact simLoop_chargers_empty lookup hemp (fullRange specs) buf rest r0 0
        (initRange specs soc) [] st tot (by simp) hok

/-- Witness for the amended C3 at a concrete triggered run. -/
theorem C3_witness :
    (([((0:ℝ), (0:ℝ)), ((0:ℝ), (0:ℝ))] : List Wp) ≠ []) ∧
    (∀ lat lon d m, okLookup lat lon d m = .ok []) ∧
    (∃ st tot, simulate_trip_with_charging okLookup [((0:ℝ), (0:ℝ)), ((0:ℝ), (0:ℝ))]
        ⟨150, 40⟩ 0 20 = .ok (st, tot) ∧
      st.map skel = refStops (simTrace [((0:ℝ), (0:ℝ)), ((0:ℝ), (0:ℝ))] ⟨150, 40⟩ 0 20) ∧
      ∀ s ∈ st, s.chargers = []) := by
  have h1 : ([((0:ℝ), (0:ℝ)), ((0:ℝ), (0:ℝ))] : List Wp) ≠ [] := by simp
  have h2 : ∀ lat lon d m, okLookup lat lon d m = Except.ok [] := fun _ _ _ _ => rfl
  exact ⟨h1, h2, C3_lookup_failure_amended okLookup _ ⟨150, 40⟩ 0 20 h1 h2⟩

/-- C1: on any completed run over a route of at least two waypoints, every
recorded stop appears in the state trace as a triggered entry whose at_km
is the cumulative distance including the segment whose consumption dropped
the remaining range below the buffer (the trace resets the range to full
after each triggered entry, so the flagged segment is the first to cross
since the last recharge); and if already the first segment drops the
remaining range below the buffer, the first stop is emitted at that first
waypoint transition, with at_km the first segment distance. -/
theorem C1_buffer_check_after_consumption (lookup : Lookup) (route : List Wp)
    (specs : CarSpecs) (soc buf : ℝ) (stops : List ChargingStop) (total : ℝ)
    (hlen : 2 ≤ route.length)
    (hok : simulate_trip_with_charging lookup route specs soc buf = .ok (stops, total)) :
    (∀ s ∈ stops, ∃ k,
      (simTrace route specs soc buf).get? k = some (s.at_km, s.location, true) ∧
      s.at_km = (((segPairs route).map Prod.fst).take (k + 1)).sum) ∧
    (∀ p0 p1 rest2, route = p0 :: p1 :: rest2 →
      initRange specs soc - haversine p0.1 p0.2 p1.1 p1.2 < buf →
      ∃ s stops2, stops = s :: stops2 ∧
        s.at_km = haversine p0.1 p0.2 p1.1 p1.2 ∧ s.location = p1) := by
  constructor
  · intro s hs
    cases route with
    | nil => simp at hlen
    | cons r0 rest =>
      simp only [simulate_trip_with_charging] at hok
      obtain ⟨hskel, -⟩ := simLoop_ok_skel lookup (fullRange specs) buf rest r0 0
        (initRange specs soc) [] stops total hok
      simp only [List.map_nil, List.nil_append] at hskel
      have hmem : skel s ∈ stops.map skel := List.mem_map_of_mem skel hs
      rw [hskel] at hmem
      obtain ⟨k, hk⟩ := refStops_mem _ _ hmem
      refine ⟨k, hk, ?_⟩
      have h := traceAux_get? (fullRange specs) buf (segPairsGo r0 rest) k 0
        (initRange specs soc) s.at_km s.location true hk
      simpa using h
  · intro p0 p1 rest2 hroute htrig
    subst hroute
    simp only [simulate_trip_with_charging] at hok
    obtain ⟨hskel, -⟩ := simLoop_ok_skel lookup (fullRange specs) buf (p1 :: rest2) p0 0
      (initRange specs soc) [] stops total hok
    simp only [List.map_nil, List.nil_append, segPairsGo, traceAux] at hskel
    rw [if_pos htrig] at hskel
    simp only [refStops, List.filterMap_cons] at hskel
    cases stops with
    | nil => simp at hskel
    | cons s stops2 =>
      simp only [List.map_cons, List.cons.injEq] at hskel
      obtain ⟨hhead, -⟩ := hskel
      refine ⟨s, stops2, rfl, ?_, congrArg Prod.snd hhead⟩
      have h1 : s.at_km = 0 + haversine p0.1 p0.2 p1.1 p1.2 := congrArg Prod.fst hhead
      rw [h1]
      ring

/-- Witness for C1 at a concrete completed run. -/
theorem C1_witness :
    (2 ≤ ([((0:ℝ), (0:ℝ)), ((0:ℝ), (0:ℝ))] : List Wp).length) ∧
    simulate_trip_with_charging okLookup [((0:ℝ), (0:ℝ)), ((0:ℝ), (0:ℝ))] ⟨150, 40⟩ 0 20 =
      .ok ([⟨0, ((0:ℝ), (0:ℝ)), []⟩], 0) ∧
    ((∀ s ∈ ([⟨0, ((0:ℝ), (0:ℝ)), []⟩] : List ChargingStop), ∃ k,
      (simTrace [((0:ℝ), (0:ℝ)), ((0:ℝ), (0:ℝ))] ⟨150, 40⟩ 0 20).get? k =
        some (s.at_km, s.location, true) ∧
      s.at_km =
        (((segPairs [((0:ℝ), (0:ℝ)), ((0:ℝ), (0:ℝ))]).map Prod.fst).take (k + 1)).sum) ∧
    (∀ p0 p1 rest2, ([((0:ℝ), (0:ℝ)), ((0:ℝ), (0:ℝ))] : List Wp) = p0 :: p1 :: rest2 →
      initRange ⟨150, 40⟩ 0 - haversine p0.1 p0.2 p1.1 p1.2 < 20 →
      ∃ s stops2, ([⟨0, ((0:ℝ), (0:ℝ)), []⟩] : List ChargingStop) = s :: stops2 ∧
        s.at_km = haversine p0.1 p0.2 p1.1 p1.2 ∧ s.location = p1)) := by
  refine ⟨by norm_num, sim_concrete_zero, ?_⟩
  exact C1_buffer_check_after_consumption okLookup _ ⟨150, 40⟩ 0 20 _ 0
    (by norm_num) sim_concrete_zero

/-- C6: whenever the fetcher completes, its result is the raw accumulated
lookup results deduplicated by charger id: each id occurs exactly once, at
the position of its first occurrence across the per-point results in query
order (not sorted by distance). -/
theorem C6_dedup_first_seen (lookup : Lookup) (rc : List Wp) (m : ℕ) (d : ℝ)
    (raw : List Charger) (hne : rc ≠ [])
    (hfetch : fetchAll lookup m d (samplePoints rc) [] = .ok raw) :
    get_chargers_near_route lookup rc m d = .ok (dedupByID raw) ∧
    (dedupByID raw).map Charger.id = firstKeys (raw.map Charger.id) ∧
    ((dedupByID raw).map Charger.id).Nodup := by
  refine ⟨?_, dedupByID_map_id raw, ?_⟩
  · match rc with
    | [] => exact absurd rfl hne
    | p :: ps =>
      simp only [get_chargers_near_route]
      rw [hfetch]
  · rw [dedupByID_map_id]
    exact firstKeys_nodup _

/-- Witness for C6: a stub returning charger id 7 from each of the two
sample points; the fetched list holds that id exactly once. -/
theorem C6_witness :
    (([((0:ℝ), (0:ℝ)), ((1:ℝ), (1:ℝ))] : List Wp) ≠ []) ∧
    fetchAll dupLookup 10 2 (samplePoints [((0:ℝ), (0:ℝ)), ((1:ℝ), (1:ℝ))]) [] =
      .ok [⟨7, "a"⟩, ⟨7, "a"⟩] ∧
    (get_chargers_near_route dupLookup [((0:ℝ), (0:ℝ)), ((1:ℝ), (1:ℝ))] 10 2 =
        .ok (dedupByID [⟨7, "a"⟩, ⟨7, "a"⟩]) ∧
      (dedupByID [⟨7, "a"⟩, ⟨7, "a"⟩]).map Charger.id =
        firstKeys ([⟨7, "a"⟩, ⟨7, "a"⟩].map Charger.id) ∧
      ((dedupByID [⟨7, "a"⟩, ⟨7, "a"⟩]).map Charger.id).Nodup) := by
  have h1 : ([((0:ℝ), (0:ℝ)), ((1:ℝ), (1:ℝ))] : List Wp) ≠ [] := by simp
  have h2 : fetchAll dupLookup 10 2 (samplePoints [((0:ℝ), (0:ℝ)), ((1:ℝ), (1:ℝ))]) [] =
      .ok [⟨7, "a"⟩, ⟨7, "a"⟩] := rfl
  exact ⟨h1, h2, C6_dedup_first_seen dupLookup _ 10 2 _ h1 h2⟩

/-- C8: for any route whose lookup-independent trace predicts exactly one
buffer crossing, a run with a never-raising collaborator produces exactly
one stop, and that stop's at_km is at most the returned total distance. -/
theorem C8_single_crossing (lookup : Lookup) (route : List Wp) (specs : CarSpecs)
    (soc buf : ℝ)
    (hlk : ∀ lat lon d m, ∃ cs, lookup lat lon d m = .ok cs)
    (hne : route ≠ [])
    (hone : (refStops (simTrace route specs soc buf)).length = 1) :
    ∃ st tot, simulate_trip_with_charging lookup route specs soc buf = .ok (st, tot) ∧
      st.length = 1 ∧ ∀ s ∈ st, s.at_km ≤ tot := by
  match route with
  | [] => exact absurd rfl hne
  | r0 :: rest =>
    obtain ⟨st, tot, hok⟩ := simLoop_ok_total lookup hlk (fullRange specs) buf rest r0 0
      (initRange specs soc) []
    obtain ⟨hskel, htot⟩ := simLoop_ok_skel lookup (fullRange specs) buf rest r0 0
      (initRange specs soc) [] st tot hok
    simp only [List.map_nil, List.nil_append] at hskel
    refine ⟨st, tot, by simpa [simulate_trip_with_charging] using hok, ?_, ?_⟩
    · have hlm : (st.map skel).length = 1 := by
        rw [hskel]
        simpa [simTrace, segPairs] using hone
      simpa using hlm
    · intro s hs
      have hmem : skel s ∈ refStops (traceAux (fullRange specs) buf (segPairsGo r0 rest) 0
          (initRange specs soc)) := by
        rw [← hskel]
        exact List.mem_map_of_mem skel hs
      obtain ⟨k, hk⟩ := refStops_mem _ _ hmem
      have hat := traceAux_get? (fullRange specs) buf (segPairsGo r0 rest) k 0
        (initRange specs soc) s.at_km s.location true hk
      have hle := take_sum_le_sum ((segPairsGo r0 rest).map Prod.fst)
        (segPairsGo_nonneg rest r0) (k + 1)
      rw [htot]
      linarith

/-- Witness for C8 at a concrete single-crossing run. -/
theorem C8_witness :
    (∀ lat lon d m, ∃ cs, okLookup lat lon d m = .ok cs) ∧
    (([((0:ℝ), (0:ℝ)), ((0:ℝ), (0:ℝ))] : List Wp) ≠ []) ∧
    (refStops (simTrace [((0:ℝ), (0:ℝ)), ((0:ℝ), (0:ℝ))] ⟨150, 40⟩ 0 20)).length = 1 ∧
    (∃ st tot, simulate_trip_with_charging okLookup [((0:ℝ), (0:ℝ)), ((0:ℝ), (0:ℝ))]
        ⟨150, 40⟩ 0 20 = .ok (st, tot) ∧
      st.length = 1 ∧ ∀ s ∈ st, s.at_km ≤ tot) := by
  have hlk : ∀ lat lon d m, ∃ cs, okLookup lat lon d m = Except.ok cs :=
    fun _ _ _ _ => ⟨[], rfl⟩
  have hne : ([((0:ℝ), (0:ℝ)), ((0:ℝ), (0:ℝ))] : List Wp) ≠ [] := by simp
  have hone : (refStops (simTrace [((0:ℝ), (0:ℝ)), ((0:ℝ), (0:ℝ))] ⟨150, 40⟩ 0 20)).length
      = 1 := by rw [trace_concrete_zero]; rfl
  exact ⟨hlk, hne, hone, C8_single_crossing okLookup _ ⟨150, 40⟩ 0 20 hlk hne hone⟩

/-- C10: for any route, profile, SOC and buffer, two runs with any two
never-raising charger collaborators return the same total distance and stop
lists with identical at_km and location sequences; only the candidates
field can differ, because the recharge happens at every triggered stop
whether or not chargers were found. -/
theorem C10_lookup_noninterference (route : List Wp) (specs : CarSpecs) (soc buf : ℝ)
    (l1 l2 : Lookup) (hne : route ≠ [])
    (h1 : ∀ lat lon d m, ∃ cs, l1 lat lon d m = .ok cs)
    (h2 : ∀ lat lon d m, ∃ cs, l2 lat lon d m = .ok cs) :
    ∃ st1 st2 tot,
      simulate_trip_with_charging l1 route specs soc buf = .ok (st1, tot) ∧
      simulate_trip_with_charging l2 route specs soc buf = .ok (st2, tot) ∧
      st1.map skel = st2.map skel := by
  match route with
  | [] => exact absurd rfl hne
  | r0 :: rest =>
    obtain ⟨st1, tot1, hok1⟩ := simLoop_ok_total l1 h1 (fullRange specs) buf rest r0 0
      (initRange specs soc) []
    obtain ⟨st2, tot2, hok2⟩ := simLoop_ok_total l2 h2 (fullRange specs) buf rest r0 0
      (initRange specs soc) []
    obtain ⟨hs1, ht1⟩ := simLoop_ok_skel l1 (fullRange specs) buf rest r0 0
      (initRange specs soc) [] st1 tot1 hok1
    obtain ⟨hs2, ht2⟩ := simLoop_ok_skel l2 (fullRange specs) buf rest r0 0
      (initRange specs soc) [] st2 tot2 hok2
    have htot : tot2 = tot1 := by rw [ht1, ht2]
    refine ⟨st1, st2, tot1, by simpa [simulate_trip_with_charging] using hok1, ?_, ?_⟩
    · rw [← htot]
      simpa [simulate_trip_with_charging] using hok2
    · rw [hs1, hs2]

/-- Witness for C10 with two different concrete collaborators. -/
theorem C10_witness :
    (([((0:ℝ), (0:ℝ)), ((0:ℝ), (0:ℝ))] : List Wp) ≠ []) ∧
    (∀ lat lon d m, ∃ cs, okLookup lat lon d m = .ok cs) ∧
    (∀ lat lon d m, ∃ cs, oneLookup lat lon d m = .ok cs) ∧
    (∃ st1 st2 tot,
      simulate_trip_with_charging okLookup [((0:ℝ), (0:ℝ)), ((0:ℝ), (0:ℝ))]
        ⟨150, 40⟩ 0 20 = .ok (st1, tot) ∧
      simulate_trip_with_charging oneLookup [((0:ℝ), (0:ℝ)), ((0:ℝ), (0:ℝ))]
        ⟨150, 40⟩ 0 20 = .ok (st2, tot) ∧
      st1.map skel = st2.map skel) := by
  have hne : ([((0:ℝ), (0:ℝ)), ((0:ℝ), (0:ℝ))] : List Wp) ≠ [] := by simp
  have h1 : ∀ lat lon d m, ∃ cs, okLookup lat lon d m = Except.ok cs :=
    fun _ _ _ _ => ⟨[], rfl⟩
  have h2 : ∀ lat lon d m, ∃ cs, oneLookup lat lon d m = Except.ok cs :=
    fun _ _ _ _ => ⟨[⟨1, "b"⟩], rfl⟩
  exact ⟨hne, h1, h2, C10_lookup_noninterference _ ⟨150, 40⟩ 0 20 okLookup oneLookup hne h1 h2⟩
